import Mathlib

/-!
Verification development for the mcp-finance-analyzer repository: a shallow
embedding in Lean 4 of the host orchestration loop (src/host.py) and of the
finance tool server (src/finance_mcp_server.py), together with theorems about
connection retry, catalog discovery, tool invocation, conversation
orchestration, process exit behaviour and the tool server operations.

Modelling conventions:
* Python exceptions are values of `PyExc`; a `try`/`except` body that can
  raise is a function into `Except PyExc _` or carries an explicit outcome
  argument chosen by the environment (network, server, LLM).
* Network and LLM interactions are parameters ("oracles") supplied to the
  embedded functions, so every definition is executable on concrete inputs.
* Python strings are Lean `String`s; `str.lower()` is `strLower`,
  substring tests (`a in b`) are `containsSub`.
-/

namespace FinanceAnalyzer

/-! ### String helpers -/

/-- Python `s.lower()` / `s.upper()`, restricted to ASCII case mapping. -/
def strLower (s : String) : String := String.mk (s.data.map Char.toLower)

def strUpper (s : String) : String := String.mk (s.data.map Char.toUpper)

/-- Does `needle` start the list `hay`? -/
def charsStartWith : List Char → List Char → Bool
  | [], _ => true
  | _ :: _, [] => false
  | a :: as, b :: bs => a == b && charsStartWith as bs

/-- Does `needle` occur contiguously inside `hay`? -/
def charsOccurIn (needle : List Char) : List Char → Bool
  | [] => needle.isEmpty
  | c :: cs => charsStartWith needle (c :: cs) || charsOccurIn needle cs

/-- Python's `needle in hay` on strings. -/
def containsSub (needle hay : String) : Bool :=
  charsOccurIn needle.toList hay.toList

/-! ### Data model of the host (src/host.py) -/

/-- A tool descriptor as returned by MCP `list_tools` (fields used by the
host: `name`, `description`, `inputSchema`; the schema is opaque here). -/
structure ToolDescriptor where
  name : String
  description : String
  inputSchema : String
deriving DecidableEq

/-- The dictionary built by `format_tools_for_claude` for one tool. -/
structure ClaudeTool where
  name : String
  description : String
  input_schema : String
deriving DecidableEq

def toolToClaude (t : ToolDescriptor) : ClaudeTool :=
  ⟨t.name, t.description, t.inputSchema⟩

/-- The mutable state of `FinanceAnalyzerHost` relevant to the claims.
`available_tools` is the stored catalog; `liveConn` models the presence and
identity of `self.mcp_session` (numbered by `connGen`, the count of sessions
created so far).  `lastDiscovery` is a ghost history variable, not present in
the Python object: it records the connection id and descriptor list of the
most recent *successful* discovery call, which the specification's catalog
invariant talks about. -/
structure HostState where
  available_tools : List ToolDescriptor
  connGen : Nat
  liveConn : Option Nat
  lastDiscovery : Option (Nat × List ToolDescriptor)
deriving DecidableEq

/-- State right after `__init__`. -/
def initialHostState : HostState := ⟨[], 0, none, none⟩

/-- Model of `format_tools_for_claude` (host.py:142-157): builds one Claude tool dict
per stored descriptor.  The `try`/`except` around the dict construction can
never fire (attribute access on a descriptor is total), so the translation is
a plain map. -/
def format_tools_for_claude (st : HostState) : List ClaudeTool :=
  st.available_tools.map toolToClaude

/-! ### Exceptions and the connection-keyword classifier -/

/-- A Python exception as observed by the host's handlers: either the
`asyncio.TimeoutError` raised by `asyncio.wait_for` (caught by the dedicated
`except asyncio.TimeoutError` clauses), or any other exception with its type
name (`type(e).__name__`) and text (`str(e)`). -/
inductive PyExc where
  | timeoutError
  | exc (etype : String) (emsg : String)
deriving DecidableEq

def PyExc.typeName : PyExc → String
  | .timeoutError => "TimeoutError"
  | .exc t _ => t

def PyExc.msg : PyExc → String
  | .timeoutError => ""
  | .exc _ m => m

/-- host.py:184-187. -/
def connection_keywords : List String :=
  ["connection", "protocol", "remote", "disconnect", "closed",
   "reset", "refused", "unreachable", "timeout", "network"]

/-- host.py:189: `any(keyword in error_type.lower() or keyword in error_msg
for keyword in connection_keywords)` where `error_msg = str(e).lower()`. -/
def matchesConnectionKeywords (e : PyExc) : Bool :=
  let et := strLower e.typeName
  let em := strLower e.msg
  connection_keywords.any (fun k => containsSub k et || containsSub k em)

/-! ### Tool invocation (`call_mcp_tool`, host.py:159-196) -/

/-- Arguments of a tool call (a JSON object of string values). -/
abbrev Args := List (String × String)

/-- Outcome of the awaited `self.mcp_session.call_tool(...)`: a result whose
content blocks carry the given text payloads, or a raised exception
(`asyncio.wait_for` turns expiry into `PyExc.timeoutError`). -/
inductive ToolCallOutcome where
  | ok (content : List String)
  | raise (e : PyExc)
deriving DecidableEq

def unavailableMsg : String :=
  "MCP server is no longer available. The server may have been shut down. " ++
  "You can continue with general questions or restart the server and try again."

/-- Model of `call_mcp_tool` (host.py:159-196).  The `Except` result models whether the
method raises to its caller: `.ok` carries the updated state and the returned
string.  Every branch of the Python function is inside `try`/`except`
handlers that return strings, which the theorems below make precise. -/
def call_mcp_tool (st : HostState) (tool_name : String) (_arguments : Args)
    (o : ToolCallOutcome) : Except PyExc (HostState × String) :=
  match o with
  | .ok content =>
    match content with
    | [] => .ok (st, "Tool " ++ tool_name ++ " executed but returned no content")
    | t :: _ => .ok (st, t)
  | .raise .timeoutError =>
    .ok (st, "Tool " ++ tool_name ++
      " timed out after 30 seconds - MCP server may be unavailable")
  | .raise (.exc etype emsg) =>
    if matchesConnectionKeywords (.exc etype emsg) then
      .ok ({ st with available_tools := [] }, unavailableMsg)
    else
      .ok (st, "Error calling tool " ++ tool_name ++ ": " ++ etype)

/-! ### Catalog discovery (`discover_tools`, host.py:113-140) -/

/-- Outcome of the awaited `self.mcp_session.list_tools()`. -/
inductive DiscOutcome where
  | tools (ts : List ToolDescriptor)
  | timeout
  | error (etype : String)
deriving DecidableEq

/-- Model of `discover_tools` run against connection `conn`: on a returned list it
stores it in `available_tools` (host.py:124) and succeeds iff it is
non-empty; on timeout or exception it returns failure leaving the state
untouched.  The ghost `lastDiscovery` records a successful discovery. -/
def discover_tools (st : HostState) (conn : Nat) (o : DiscOutcome) :
    HostState × Bool :=
  match o with
  | .tools ts =>
    ({ st with
        available_tools := ts,
        lastDiscovery := if ts.isEmpty then st.lastDiscovery else some (conn, ts) },
      !ts.isEmpty)
  | .timeout => (st, false)
  | .error _ => (st, false)

/-- Does this discovery outcome count as a failure of the attempt? -/
def discFails : DiscOutcome → Bool
  | .tools ts => ts.isEmpty
  | .timeout => true
  | .error _ => true

/-! ### Connection with retry (`connect_to_mcp_server`, host.py:50-111) -/

/-- Outcome of one connection attempt as decided by the environment:
the SSE connect / session initialize timed out, or raised, or a session was
established and discovery then ran with outcome `d`. -/
inductive AttemptOutcome where
  | sseTimeout
  | sseError (etype : String) (emsg : String)
  | session (d : DiscOutcome)
deriving DecidableEq

/-- An attempt fails unless a session was established and discovery returned
a non-empty descriptor list (host.py:83-87). -/
def attemptFails : AttemptOutcome → Bool
  | .session d => discFails d
  | .sseTimeout => true
  | .sseError _ _ => true

/-- The body of one connection attempt (host.py:56-87): tear down any
previous session (host.py:60-61), then either fail to establish
transport/session, or establish a fresh session (a new connection id) and
run discovery on it.  Returns the state after the attempt and whether the
attempt succeeded. -/
def attemptTry (st : HostState) (o : AttemptOutcome) : HostState × Bool :=
  match o with
  | .sseTimeout => ({ st with liveConn := none }, false)
  | .sseError _ _ => ({ st with liveConn := none }, false)
  | .session d =>
    discover_tools
      { st with connGen := st.connGen + 1, liveConn := some (st.connGen + 1) }
      (st.connGen + 1) d

/-- The retry loop of `connect_to_mcp_server`, one step per configured
attempt.  Returns the final state, the boolean result, and the trace of
`asyncio.sleep` delays (in seconds, as rationals) in the order they occur.
A failed attempt is cleaned up (host.py:98) and, when it is not the last
one, is followed by a backoff sleep of `base * 2 ^ (attempt - 1)` seconds
(host.py:101-104). -/
def connectGo (base : ℚ) (maxR : Nat) :
    Nat → List AttemptOutcome → HostState → HostState × Bool × List ℚ
  | _, [], st => (st, false, [])
  | attempt, o :: rest, st =>
    let tried := attemptTry st o
    if tried.2 then (tried.1, true, [])
    else if attempt < maxR then
      let r := connectGo base maxR (attempt + 1) rest { tried.1 with liveConn := none }
      (r.1, r.2.1, base * 2 ^ (attempt - 1) :: r.2.2)
    else ({ tried.1 with liveConn := none }, false, [])

/-- Model of `connect_to_mcp_server` with configurable `base_delay` and
`max_retries`; the environment supplies one `AttemptOutcome` per attempt. -/
def connectRun (base : ℚ) (maxR : Nat) (st : HostState)
    (outcomes : List AttemptOutcome) : HostState × Bool × List ℚ :=
  connectGo base maxR 1 outcomes st

/-- Model of `connect_to_mcp_server` with the constructor defaults
`base_delay = 1.0`, `max_retries = 3` (host.py:32-33). -/
def connect_to_mcp_server (st : HostState) (outcomes : List AttemptOutcome) :
    HostState × Bool × List ℚ :=
  connectRun 1 3 st outcomes

/-- Number of attempts the loop actually executes: it stops at the first
success and never exceeds `maxR`. -/
def executedAttempts (maxR : Nat) (outcomes : List AttemptOutcome) : Nat :=
  min maxR ((outcomes.takeWhile attemptFails).length + 1)

/-! ### Conversation orchestration
(`get_claude_response`, host.py:198-251; `handle_tool_use`, host.py:253-304) -/

/-- A content block of an LLM response: a text block (which has a `.text`
attribute) or a tool-use request block (which has `.name`, `.input`, `.id`
but no `.text`). -/
inductive ContentBlock where
  | text (t : String)
  | toolUse (name : String) (input : Args) (id : String)
deriving DecidableEq

structure LLMResponse where
  content : List ContentBlock
  stop_reason : String
deriving DecidableEq

/-- Content of a message appended to the history: a plain string, the
assistant's content-block list, or a single-element list holding one
tool-result block `[..type tool_result, tool_use_id, content..]`
(host.py:274-283). -/
inductive MessageContent where
  | ofText (s : String)
  | ofBlocks (bs : List ContentBlock)
  | ofToolResult (tool_use_id : String) (content : String)
deriving DecidableEq

structure Message where
  role : String
  content : MessageContent
deriving DecidableEq

/-- Model of `response.content[0].text`: raises `IndexError` on an empty content list
and `AttributeError` when the first block is a tool-use block (which carries
no `.text` attribute). -/
def firstContentText : List ContentBlock → Except String String
  | [] => .error "IndexError"
  | .text t :: _ => .ok t
  | .toolUse _ _ _ :: _ => .error "AttributeError"

/-- The tool-use blocks of a content list, in order, as
(name, input, id) triples. -/
def toolUses (bs : List ContentBlock) : List (String × Args × String) :=
  bs.filterMap fun b =>
    match b with
    | .toolUse n a i => some (n, a, i)
    | .text _ => none

/-- Result of the per-block tool loop of `handle_tool_use`
(host.py:264-284). -/
structure ToolLoopResult where
  state : HostState
  resultMessages : List Message
  invocations : List (String × Args)
  raised : Option PyExc
deriving DecidableEq

/-- The loop body of `handle_tool_use`: for each tool-use block, in order,
call `call_mcp_tool` and append one tool-result message tagged with the
block's id.  `outcomes k` is the environment's outcome for the `k`-th
invocation.  If a call were to raise, the loop would stop with the exception
recorded (handled by the surrounding `except`); `call_mcp_tool` in fact
never raises, so `raised` is always `none` (proved below). -/
def runToolBlocks (outcomes : Nat → ToolCallOutcome) :
    List ContentBlock → HostState → Nat → ToolLoopResult
  | [], st, _ => ⟨st, [], [], none⟩
  | .text _ :: rest, st, k => runToolBlocks outcomes rest st k
  | .toolUse name input id :: rest, st, k =>
    match call_mcp_tool st name input (outcomes k) with
    | .ok (st1, r) =>
      let res := runToolBlocks outcomes rest st1 (k + 1)
      ⟨res.state, Message.mk "user" (.ofToolResult id r) :: res.resultMessages,
        (name, input) :: res.invocations, res.raised⟩
    | .error e => ⟨st, [], [], some e⟩

/-- Result of one user turn through `get_claude_response`. -/
structure TurnResult where
  reply : String
  state : HostState
  invocations : List (String × Args)
  secondCallMessages : Option (List Message)
deriving DecidableEq

/-- Model of `handle_tool_use` (host.py:253-304): append the assistant message, run
every tool-use block sequentially, then issue the follow-up completion
(modelled as returning `second`) and return `final_response.content[0].text`;
any exception inside is caught and reported as
`"Error during tool execution: <type name>"`. -/
def handle_tool_use (st : HostState) (response : LLMResponse)
    (messages : List Message) (outcomes : Nat → ToolCallOutcome)
    (second : LLMResponse) : TurnResult :=
  let messages1 := messages ++ [Message.mk "assistant" (.ofBlocks response.content)]
  let loop := runToolBlocks outcomes response.content st 0
  match loop.raised with
  | some e =>
    ⟨"Error during tool execution: " ++ e.typeName, loop.state,
      loop.invocations, none⟩
  | none =>
    let messages2 := messages1 ++ loop.resultMessages
    match firstContentText second.content with
    | .ok t => ⟨t, loop.state, loop.invocations, some messages2⟩
    | .error n =>
      ⟨"Error during tool execution: " ++ n, loop.state, loop.invocations,
        some messages2⟩

def noToolsNote : String :=
  "Note: MCP server tools are currently unavailable. " ++
  "Provide a helpful response based on general knowledge."

/-- Model of `get_claude_response` (host.py:198-251) for a turn whose first completion
request succeeds with response `resp1` (and, if one round of tool use
happens, whose second completion returns `resp2`).  Before dispatching on
the stop reason the host logs `response.content[0].text` (host.py:234):
when that attribute access raises, the surrounding `except` returns
`"Error communicating with Claude: <type name>"` and no tool runs. -/
def get_claude_response (st : HostState) (user_message : String)
    (resp1 : LLMResponse) (outcomes : Nat → ToolCallOutcome)
    (resp2 : LLMResponse) : TurnResult :=
  let claude_tools := format_tools_for_claude st
  let messages : List Message :=
    [Message.mk "user" (.ofText user_message)] ++
      (if claude_tools.isEmpty then [Message.mk "system" (.ofText noToolsNote)]
       else [])
  match firstContentText resp1.content with
  | .error n => ⟨"Error communicating with Claude: " ++ n, st, [], none⟩
  | .ok t0 =>
    if resp1.stop_reason == "tool_use" && !claude_tools.isEmpty then
      handle_tool_use st resp1 messages outcomes resp2
    else
      ⟨t0, st, [], none⟩

/-! ### Reachable host states

`connect_to_mcp_server` is invoked from exactly two places — `main`
(host.py:383), right after construction when the catalog is empty, and
`run_interactive` (host.py:326-328), guarded by `if not self.available_tools`
— so the connect step carries the hypothesis that the stored catalog is
empty.  Besides `connect_to_mcp_server`/`discover_tools`, the only code that
mutates `available_tools` is `call_mcp_tool` (host.py:191). -/

inductive Reachable : HostState → Prop where
  | init : Reachable initialHostState
  | connect (st : HostState) (outcomes : List AttemptOutcome) :
      Reachable st → st.available_tools = [] →
      Reachable (connect_to_mcp_server st outcomes).1
  | toolCall (st : HostState) (n : String) (a : Args) (o : ToolCallOutcome)
      (st' : HostState) (r : String) :
      Reachable st → call_mcp_tool st n a o = .ok (st', r) → Reachable st'

/-- The specification's catalog invariant, as a predicate on states: a
non-empty stored catalog is exactly the descriptor list of the most recent
successful discovery, performed on the currently live connection. -/
def catalogConfirmed (st : HostState) : Prop :=
  st.available_tools ≠ [] →
  ∃ c, st.liveConn = some c ∧ st.lastDiscovery = some (c, st.available_tools)

/-! ### Process startup and exit (`__init__` host.py:37-48, `main`
host.py:373-402, `__main__` host.py:404-412) -/

structure ProgramOutcome where
  exitCode : Nat
  reachedInteractive : Bool
deriving DecidableEq

/-- The constructor calls `sys.exit(1)` — i.e. raises `SystemExit(1)` — exactly
when `ANTHROPIC_API_KEY` is absent (host.py:37-41). -/
def hostInitExits (anthropic_api_key : Option String) : Bool :=
  anthropic_api_key.isNone

/-- Model of `main()` (host.py:373-402): `SystemExit` derives from `BaseException`,
not `Exception`, so it is caught neither by `except Exception` in `main` nor
by the one in `__main__` and propagates out of `asyncio.run`; `.error code`
records that.  Otherwise `main` returns normally, having entered the
interactive loop iff the connect succeeded. -/
def pyMain (anthropic_api_key : Option String) (connectOk : Bool) :
    Except Nat Bool :=
  if hostInitExits anthropic_api_key then .error 1
  else .ok connectOk

/-- The `__main__` block (host.py:404-412): whatever `asyncio.run(main())`
does, the `finally: sys.exit(0)` runs; a `sys.exit(0)` raised inside
`finally` replaces any `SystemExit(1)` in flight, so the observed process
exit status is 0 on every path. -/
def programRun (anthropic_api_key : Option String) (connectOk : Bool) :
    ProgramOutcome :=
  match pyMain anthropic_api_key connectOk with
  | .error _ => ⟨0, false⟩
  | .ok reached => ⟨0, reached⟩

/-! ### The finance tool server (src/finance_mcp_server.py) -/

/-- A JSON value as far as the server code inspects one. -/
inductive J where
  | s (v : String)
  | arr (elems : List J)
  | obj (fields : List (String × J))

abbrev JDict := List (String × J)

def jLookup : JDict → String → Option J
  | [], _ => none
  | (k, v) :: rest, key => if k == key then some v else jLookup rest key

/-- Python's `key in data` on a dict. -/
def hasKey (d : JDict) (k : String) : Bool := (jLookup d k).isSome

/-- Python `str(value)` as used when a looked-up value is interpolated into an
f-string.  Upstream payload fields are strings, so only the `.s` case is
ever exercised by the claims; the other cases stand in for Python's repr of
lists/dicts, which no claim depends on. -/
def jToText : J → String
  | .s v => v
  | .arr _ => "[unmodelled array repr]"
  | .obj _ => "[unmodelled object repr]"

/-- Python `d.get(k, dflt)` followed by f-string interpolation. -/
def dictGetText (d : JDict) (k dflt : String) : String :=
  match jLookup d k with
  | some v => jToText v
  | none => dflt

/-- Outcome of `requests.get(...)` in `make_api_request`: a parsed JSON
object, or a `requests.exceptions.RequestException` with text `msg`. -/
inductive NetOutcome where
  | ok (data : JDict)
  | requestError (msg : String)

/-- Model of `make_api_request` (finance_mcp_server.py:31-47).  Returns the dict the
function returns together with the number of outbound HTTP requests
performed (0 when the API key is not configured, 1 otherwise). -/
def make_api_request (apiKey : Option String) (_function : String)
    (_params : List (String × String)) (net : NetOutcome) : JDict × Nat :=
  match apiKey with
  | none => ([("error", J.s "Alpha Vantage API key not configured")], 0)
  | some _ =>
    match net with
    | .ok data => (data, 1)
    | .requestError m => ([("error", J.s ("API request failed: " ++ m))], 1)

/-- Model of `get_stock_quote` (finance_mcp_server.py:49-81), returning the result
string and the outbound-request count. -/
def get_stock_quote (apiKey : Option String) (symbol : String)
    (net : NetOutcome) : String × Nat :=
  let symbolU := strUpper symbol
  let dn := make_api_request apiKey "GLOBAL_QUOTE" [("symbol", symbolU)] net
  let data := dn.1
  if hasKey data "error" then
    ("Error: " ++ dictGetText data "error" "", dn.2)
  else if hasKey data "Error Message" then
    ("Error: Invalid symbol \x27" ++ symbolU ++ "\x27 or API limit reached", dn.2)
  else
    let quote : JDict :=
      match jLookup data "Global Quote" with
      | some (J.obj fields) => fields
      | _ => []
    if quote.isEmpty then
      ("No data found for symbol: " ++ symbolU, dn.2)
    else
      ("Stock Quote for " ++ symbolU ++ ":\n• Current Price: $" ++
        dictGetText quote "05. price" "N/A" ++ "\n• Change: " ++
        dictGetText quote "09. change" "N/A" ++ " (" ++
        dictGetText quote "10. change percent" "N/A" ++ ")\n• Volume: " ++
        dictGetText quote "06. volume" "N/A" ++ "\n• Last Updated: " ++
        dictGetText quote "07. latest trading day" "N/A" ++ "\n", dn.2)

/-- One numbered line of `search_stocks` output:
`f"{i}. {symbol} - {name}\n"` (finance_mcp_server.py:98-101). -/
def renderMatch (i : Nat) (m : J) : String :=
  let fields : JDict :=
    match m with
    | .obj fs => fs
    | _ => []
  toString i ++ ". " ++ dictGetText fields "1. symbol" "N/A" ++ " - " ++
    dictGetText fields "2. name" "N/A" ++ "\n"

/-- The `for i, match in enumerate(matches[:5], 1)` loop body, already
applied to the truncated list. -/
def renderMatches : Nat → List J → String
  | _, [] => ""
  | i, m :: rest => renderMatch i m ++ renderMatches (i + 1) rest

/-- Model of `search_stocks` (finance_mcp_server.py:83-103). -/
def search_stocks (apiKey : Option String) (query : String)
    (net : NetOutcome) : String × Nat :=
  let dn := make_api_request apiKey "SYMBOL_SEARCH" [("keywords", query)] net
  let data := dn.1
  if hasKey data "error" then
    ("Error: " ++ dictGetText data "error" "", dn.2)
  else
    let best : List J :=
      match jLookup data "bestMatches" with
      | some (J.arr xs) => xs
      | _ => []
    if best.isEmpty then
      ("No stocks found matching: " ++ query, dn.2)
    else
      ("Search results for \x27" ++ query ++ "\x27:\n\n" ++
        renderMatches 1 (best.take 5), dn.2)

/-- Concatenation of a list of strings (used to state rendering results). -/
def concatAll : List String → String
  | [] => ""
  | s :: rest => s ++ concatAll rest

/-! ## Helper lemmas -/

/-- Lemma: `call_mcp_tool` returns a result on every outcome: each of its paths runs
through one of the `except` handlers, none of which re-raises. -/
theorem call_mcp_tool_isOk (st : HostState) (tool_name : String) (args : Args)
    (o : ToolCallOutcome) :
    ∃ st' r, call_mcp_tool st tool_name args o = .ok (st', r) := by
  cases o with
  | ok content =>
    cases content with
    | nil => exact ⟨_, _, rfl⟩
    | cons t rest => exact ⟨_, _, rfl⟩
  | raise e =>
    cases e with
    | timeoutError => exact ⟨_, _, rfl⟩
    | exc etype emsg =>
      by_cases h : matchesConnectionKeywords (.exc etype emsg) = true
      · exact ⟨{ st with available_tools := [] }, unavailableMsg,
          by simp [call_mcp_tool, h]⟩
      · exact ⟨st, "Error calling tool " ++ tool_name ++ ": " ++ etype,
          by simp [call_mcp_tool, h]⟩

/-- The only state change `call_mcp_tool` ever makes is clearing the
catalog (host.py:191). -/
theorem call_mcp_tool_state (st : HostState) (tool_name : String) (args : Args)
    (o : ToolCallOutcome) (st' : HostState) (r : String)
    (h : call_mcp_tool st tool_name args o = .ok (st', r)) :
    st' = st ∨ st' = { st with available_tools := [] } := by
  cases o with
  | ok content =>
    cases content with
    | nil => simp [call_mcp_tool] at h; exact Or.inl h.1.symm
    | cons t rest => simp [call_mcp_tool] at h; exact Or.inl h.1.symm
  | raise e =>
    cases e with
    | timeoutError => simp [call_mcp_tool] at h; exact Or.inl h.1.symm
    | exc etype emsg =>
      by_cases hm : matchesConnectionKeywords (.exc etype emsg) = true
      · simp [call_mcp_tool, hm] at h; exact Or.inr h.1.symm
      · simp [call_mcp_tool, hm] at h; exact Or.inl h.1.symm

/-- Unfolding of one step of the retry loop. -/
theorem connectGo_cons (base : ℚ) (maxR attempt : Nat) (o : AttemptOutcome)
    (rest : List AttemptOutcome) (st : HostState) :
    connectGo base maxR attempt (o :: rest) st =
      if (attemptTry st o).2 then ((attemptTry st o).1, true, [])
      else if attempt < maxR then
        ((connectGo base maxR (attempt + 1) rest
            { (attemptTry st o).1 with liveConn := none }).1,
          (connectGo base maxR (attempt + 1) rest
            { (attemptTry st o).1 with liveConn := none }).2.1,
          base * 2 ^ (attempt - 1) ::
            (connectGo base maxR (attempt + 1) rest
              { (attemptTry st o).1 with liveConn := none }).2.2)
      else ({ (attemptTry st o).1 with liveConn := none }, false, []) := rfl

/-- An attempt succeeds exactly when it does not fail. -/
theorem attemptTry_snd (st : HostState) (o : AttemptOutcome) :
    (attemptTry st o).2 = !attemptFails o := by
  cases o with
  | sseTimeout => rfl
  | sseError etype emsg => rfl
  | session d => cases d <;> simp [attemptTry, discover_tools, attemptFails, discFails]

/-- A failing attempt started with an empty catalog leaves it empty. -/
theorem attemptTry_fail_tools (st : HostState) (o : AttemptOutcome)
    (ho : attemptFails o = true) (hst : st.available_tools = []) :
    (attemptTry st o).1.available_tools = [] := by
  cases o with
  | sseTimeout => simpa [attemptTry] using hst
  | sseError etype emsg => simpa [attemptTry] using hst
  | session d =>
    cases d with
    | tools ts =>
      have hts : ts = [] := by
        simpa [attemptFails, discFails, List.isEmpty_iff] using ho
      simp [attemptTry, discover_tools, hts]
    | timeout => simpa [attemptTry, discover_tools] using hst
    | error etype => simpa [attemptTry, discover_tools] using hst

/-- A failed retry loop started with an empty catalog ends with `False` and
an empty catalog. -/
theorem connectGo_allFail (base : ℚ) (maxR : Nat) :
    ∀ (outcomes : List AttemptOutcome) (attempt : Nat) (st : HostState),
    (∀ o ∈ outcomes, attemptFails o = true) →
    st.available_tools = [] →
    (connectGo base maxR attempt outcomes st).2.1 = false ∧
      (connectGo base maxR attempt outcomes st).1.available_tools = [] := by
  intro outcomes
  induction outcomes with
  | nil => intro attempt st _ hst; simp [connectGo, hst]
  | cons o rest ih =>
    intro attempt st hfail hst
    have ho : attemptFails o = true := hfail o (List.mem_cons_self o rest)
    have hrest : ∀ x ∈ rest, attemptFails x = true :=
      fun x hx => hfail x (List.mem_cons_of_mem o hx)
    have htools : (attemptTry st o).1.available_tools = [] :=
      attemptTry_fail_tools st o ho hst
    rw [connectGo_cons, attemptTry_snd, ho]
    by_cases hlt : attempt < maxR
    · have := ih (attempt + 1) { (attemptTry st o).1 with liveConn := none }
        hrest (by simpa using htools)
      simpa [hlt] using this
    · simpa [hlt] using htools

/-- A successful attempt ends in a state whose catalog is the non-empty
descriptor list just returned by discovery on the freshly created
connection, with the ghost record updated accordingly. -/
theorem attemptTry_success (st : HostState) (o : AttemptOutcome)
    (h : (attemptTry st o).2 = true) :
    ∃ ts : List ToolDescriptor, ts ≠ [] ∧
      (attemptTry st o).1 =
        { available_tools := ts, connGen := st.connGen + 1,
          liveConn := some (st.connGen + 1),
          lastDiscovery := some (st.connGen + 1, ts) } := by
  cases o with
  | sseTimeout => simp [attemptTry] at h
  | sseError etype emsg => simp [attemptTry] at h
  | session d =>
    cases d with
    | tools ts =>
      have hts : ts ≠ [] := by
        simpa [attemptTry, discover_tools, List.isEmpty_iff] using h
      refine ⟨ts, hts, ?_⟩
      simp [attemptTry, discover_tools, List.isEmpty_iff, hts]
    | timeout => simp [attemptTry, discover_tools] at h
    | error etype => simp [attemptTry, discover_tools] at h

/-- The retry loop, started with an empty catalog, establishes the catalog
invariant: a non-empty final catalog was confirmed by a successful discovery
on the connection that is live when the loop returns. -/
theorem connectGo_confirmed (base : ℚ) (maxR : Nat) :
    ∀ (outcomes : List AttemptOutcome) (attempt : Nat) (st : HostState),
    st.available_tools = [] →
    catalogConfirmed (connectGo base maxR attempt outcomes st).1 := by
  intro outcomes
  induction outcomes with
  | nil =>
    intro attempt st hst
    intro hne
    exact absurd hst (by simpa [connectGo] using hne)
  | cons o rest ih =>
    intro attempt st hst
    rw [connectGo_cons]
    by_cases hsucc : (attemptTry st o).2 = true
    · obtain ⟨ts, hts, heq⟩ := attemptTry_success st o hsucc
      intro _
      rw [if_pos hsucc]
      exact ⟨st.connGen + 1, by simp [heq], by simp [heq]⟩
    · have hfail : attemptFails o = true := by
        rw [attemptTry_snd] at hsucc
        simpa using hsucc
      have htools : (attemptTry st o).1.available_tools = [] :=
        attemptTry_fail_tools st o hfail hst
      rw [if_neg hsucc]
      by_cases hlt : attempt < maxR
      · rw [if_pos hlt]
        exact ih (attempt + 1) _ (by simpa using htools)
      · rw [if_neg hlt]
        intro hne
        exact absurd htools (by simpa using hne)

/-- Every reachable host state satisfies the catalog invariant. -/
theorem reachable_confirmed (st : HostState) (h : Reachable st) :
    catalogConfirmed st := by
  induction h with
  | init => intro hne; exact absurd rfl hne
  | connect st outcomes _ hempty _ =>
    exact connectGo_confirmed 1 3 outcomes 1 st hempty
  | toolCall st n a o st' r _ hok ih =>
    rcases call_mcp_tool_state st n a o st' r hok with heq | heq
    · subst heq; exact ih
    · subst heq; intro hne; exact absurd rfl hne

/-- The per-block loop of `handle_tool_use` never sees a raised exception,
performs exactly one invocation per tool-use block with that block's name
and arguments in model order, and emits one tool-result message per block
tagged with that block's id. -/
theorem runToolBlocks_spec (outcomes : Nat → ToolCallOutcome) :
    ∀ (blocks : List ContentBlock) (st : HostState) (k : Nat),
    (runToolBlocks outcomes blocks st k).raised = none ∧
    (runToolBlocks outcomes blocks st k).invocations =
      (toolUses blocks).map (fun b => (b.1, b.2.1)) ∧
    ∃ rs : List String, rs.length = (toolUses blocks).length ∧
      (runToolBlocks outcomes blocks st k).resultMessages =
        List.zipWith (fun b r => Message.mk "user" (.ofToolResult b.2.2 r))
          (toolUses blocks) rs := by
  intro blocks
  induction blocks with
  | nil => intro st k; exact ⟨rfl, rfl, [], rfl, rfl⟩
  | cons b rest ih =>
    intro st k
    cases b with
    | text t =>
      simpa [runToolBlocks, toolUses] using ih st k
    | toolUse name input id =>
      obtain ⟨st1, r, hok⟩ := call_mcp_tool_isOk st name input (outcomes k)
      obtain ⟨hraised, hinv, rs, hlen, hmsgs⟩ := ih st1 (k + 1)
      refine ⟨?_, ?_, r :: rs, ?_, ?_⟩
      · simp [runToolBlocks, hok, hraised]
      · simp [runToolBlocks, hok, hinv, toolUses]
      · simp [hlen, toolUses]
      · simp [runToolBlocks, hok, hmsgs, toolUses]

/-- Backoff trace of the retry loop, started at attempt index `attempt` with
one outcome per remaining configured attempt: one sleep after every executed
attempt except the last executed one, the sleep after attempt `a` lasting
`base * 2 ^ (a - 1)` seconds. -/
theorem connectGo_sleeps (base : ℚ) (maxR : Nat) :
    ∀ (outcomes : List AttemptOutcome) (attempt : Nat) (st : HostState),
    1 ≤ attempt → attempt + outcomes.length = maxR + 1 →
    (connectGo base maxR attempt outcomes st).2.2 =
      (List.range (min outcomes.length
          ((outcomes.takeWhile attemptFails).length + 1) - 1)).map
        (fun j => base * 2 ^ (attempt - 1 + j)) := by
  intro outcomes
  induction outcomes with
  | nil => intro attempt st _ _; simp [connectGo]
  | cons o rest ih =>
    intro attempt st h1 harith
    have hlen : attempt + (rest.length + 1) = maxR + 1 := by simpa using harith
    rw [connectGo_cons]
    by_cases hf : attemptFails o = true
    · have hcond : ¬ ((attemptTry st o).2 = true) := by
        rw [attemptTry_snd, hf]; simp
      rw [if_neg hcond, List.takeWhile_cons_of_pos hf]
      by_cases hlt : attempt < maxR
      · rw [if_pos hlt]
        dsimp only
        have hrl : 1 ≤ rest.length := by omega
        have hrec := ih (attempt + 1)
          { (attemptTry st o).1 with liveConn := none } (by omega) (by omega)
        rw [hrec]
        simp only [List.length_cons]
        have hminEq : (rest.length + 1) ⊓ ((rest.takeWhile attemptFails).length + 1 + 1) =
            rest.length ⊓ ((rest.takeWhile attemptFails).length + 1) + 1 := by
          omega
        rw [hminEq]
        have hm1 : 1 ≤ rest.length ⊓ ((rest.takeWhile attemptFails).length + 1) := by
          omega
        obtain ⟨m, hm⟩ := Nat.exists_eq_add_of_le hm1
        have hm' : rest.length ⊓ ((rest.takeWhile attemptFails).length + 1) = m + 1 := by
          omega
        rw [hm']
        simp only [Nat.add_sub_cancel, List.range_succ_eq_map, List.map_cons,
          List.map_map]
        congr 1
        apply List.map_congr_left
        intro j _
        simp only [Function.comp_apply]
        rw [show attempt + j = attempt - 1 + j.succ from by omega]
      · rw [if_neg hlt]
        dsimp only
        obtain rfl : rest = [] := List.length_eq_zero.mp (by omega)
        simp
    · have hf' : attemptFails o = false := by simpa using hf
      have hcond : (attemptTry st o).2 = true := by
        rw [attemptTry_snd, hf']; rfl
      rw [if_pos hcond, List.takeWhile_cons_of_neg (by simp [hf'])]
      simp [Nat.min_eq_right (by omega : 1 ≤ rest.length + 1)]

/-- Lemma: `renderMatches i ms` lists each entry of `ms` in order, the `j`-th
entry numbered `i + j`. -/
theorem renderMatches_concat :
    ∀ (ms : List J) (i : Nat),
    renderMatches i ms =
      concatAll (List.zipWith renderMatch (List.range' i ms.length) ms) := by
  intro ms
  induction ms with
  | nil => intro i; rfl
  | cons m rest ih =>
    intro i
    rw [List.length_cons, List.range'_succ]
    simp only [List.zipWith_cons_cons, renderMatches, concatAll]
    rw [ih (i + 1)]

/-! ## Claims -/

/-- Claim C1, counterexample.  The claim quantifies over *every* raised
exception: `asyncio.TimeoutError` has type name `TimeoutError`, which
matches the connection-keyword set (keyword `timeout`), yet `call_mcp_tool`
answers it from the dedicated timeout branch (host.py:177-178): the stored
catalog stays non-empty and the returned string is the timeout message, not
the fixed server-unavailable message. -/
theorem claim_C1_counterexample :
    matchesConnectionKeywords PyExc.timeoutError = true ∧
    call_mcp_tool
        ⟨[⟨"get_stock_quote", "Get stock quote", "object"⟩], 1, some 1, none⟩
        "get_stock_quote" [("symbol", "AAPL")] (.raise .timeoutError) =
      .ok (⟨[⟨"get_stock_quote", "Get stock quote", "object"⟩], 1, some 1, none⟩,
        "Tool get_stock_quote timed out after 30 seconds - MCP server may be unavailable") ∧
    ([⟨"get_stock_quote", "Get stock quote", "object"⟩] : List ToolDescriptor) ≠ [] ∧
    "Tool get_stock_quote timed out after 30 seconds - MCP server may be unavailable" ≠
      unavailableMsg :=
  ⟨by decide, rfl, by decide, by decide⟩

/-- Claim C1, amended: for every exception raised inside a tool invocation,
`call_mcp_tool` returns a string (it never raises to its caller); and
whenever the raised exception is not the timeout exception handled by the
dedicated timeout branch and its type name or message text matches the
connection-keyword set, the stored catalog is empty immediately after the
call and the returned string is the fixed server-unavailable message. -/
theorem claim_C1 (st : HostState) (tool_name : String) (args : Args)
    (o : ToolCallOutcome) :
    (∃ st' r, call_mcp_tool st tool_name args o = .ok (st', r)) ∧
    (∀ etype emsg, o = .raise (.exc etype emsg) →
      matchesConnectionKeywords (.exc etype emsg) = true →
      call_mcp_tool st tool_name args o =
        .ok ({ st with available_tools := [] }, unavailableMsg)) := by
  refine ⟨call_mcp_tool_isOk st tool_name args o, ?_⟩
  intro etype emsg ho hm
  subst ho
  simp [call_mcp_tool, hm]

/-- Claim C1, witness: a connection-class exception at a concrete state
clears the catalog and yields the fixed message. -/
theorem claim_C1_witness :
    call_mcp_tool
        ⟨[⟨"get_stock_quote", "Get stock quote", "object"⟩], 1, some 1, none⟩
        "get_stock_quote" []
        (.raise (.exc "RemoteProtocolError" "peer closed connection")) =
      .ok (⟨[], 1, some 1, none⟩, unavailableMsg) :=
  (claim_C1 ⟨[⟨"get_stock_quote", "Get stock quote", "object"⟩], 1, some 1, none⟩
      "get_stock_quote" []
      (.raise (.exc "RemoteProtocolError" "peer closed connection"))).2
    "RemoteProtocolError" "peer closed connection" rfl (by decide)

/-- Claim C3: if every one of the `maxR` configured connection attempts
fails (the default `max_retries` is 3, see `connect_to_mcp_server`), then
`connect()` returns failure and the stored tool catalog — empty at entry,
as at both call sites of `connect_to_mcp_server` — is empty when it
returns. -/
theorem claim_C3 (base : ℚ) (maxR : Nat) (st : HostState)
    (outcomes : List AttemptOutcome)
    (hlen : outcomes.length = maxR)
    (hfail : ∀ o ∈ outcomes, attemptFails o = true)
    (hst : st.available_tools = []) :
    (connectRun base maxR st outcomes).2.1 = false ∧
      (connectRun base maxR st outcomes).1.available_tools = [] :=
  connectGo_allFail base maxR outcomes 1 st hfail hst

/-- Claim C3, witness: three concrete failing attempts under the default
configuration. -/
theorem claim_C3_witness :
    (connectRun 1 3 initialHostState
        [.sseTimeout, .sseError "ConnectError" "All connection attempts failed",
          .session .timeout]).2.1 = false ∧
    (connectRun 1 3 initialHostState
        [.sseTimeout, .sseError "ConnectError" "All connection attempts failed",
          .session .timeout]).1.available_tools = [] :=
  claim_C3 1 3 initialHostState
    [.sseTimeout, .sseError "ConnectError" "All connection attempts failed",
      .session .timeout] rfl (by decide) rfl

/-- Claim C4: during `connect()` the trace of backoff sleeps is
`base * 2 ^ 0, base * 2 ^ 1, ...`, one sleep between consecutive executed
attempts and none after the last executed attempt; equivalently, the delay
slept before attempt `i` (for `1 < i ≤` number of executed attempts) is
`base * 2 ^ (i - 2)` seconds, and the trace has one entry fewer than the
number of executed attempts, so no delay follows the final attempt. -/
theorem claim_C4 (base : ℚ) (maxR : Nat) (st : HostState)
    (outcomes : List AttemptOutcome) (hlen : outcomes.length = maxR) :
    (connectRun base maxR st outcomes).2.2 =
      (List.range (executedAttempts maxR outcomes - 1)).map
        (fun j => base * 2 ^ j) ∧
    (connectRun base maxR st outcomes).2.2.length =
      executedAttempts maxR outcomes - 1 ∧
    (∀ i, 2 ≤ i → i ≤ executedAttempts maxR outcomes →
      (connectRun base maxR st outcomes).2.2.get? (i - 2) =
        some (base * 2 ^ (i - 2))) := by
  have h := connectGo_sleeps base maxR outcomes 1 st le_rfl (by omega)
  have hfun : (fun j => base * 2 ^ (1 - 1 + j)) = (fun j => base * 2 ^ j) := by
    funext j
    norm_num
  have hexe : min outcomes.length ((outcomes.takeWhile attemptFails).length + 1) =
      executedAttempts maxR outcomes := by
    rw [executedAttempts, hlen]
  rw [hfun, hexe] at h
  have hr : (connectRun base maxR st outcomes).2.2 =
      (List.range (executedAttempts maxR outcomes - 1)).map
        (fun j => base * 2 ^ j) := h
  refine ⟨hr, ?_, ?_⟩
  · rw [hr]
    simp
  · intro i h2 hle
    rw [hr, List.get?_map, List.get?_range (by omega)]
    rfl

/-- Claim C4, witness: the default configuration with three failing
attempts; the sleeps slept before attempts 2 and 3 are the first and second
entries of the trace. -/
theorem claim_C4_witness :
    (connectRun 1 3 initialHostState
        [.sseTimeout, .sseTimeout, .session .timeout]).2.2 =
      (List.range (executedAttempts 3
          [.sseTimeout, .sseTimeout, .session .timeout] - 1)).map
        (fun j => (1 : ℚ) * 2 ^ j) ∧
    (connectRun 1 3 initialHostState
        [.sseTimeout, .sseTimeout, .session .timeout]).2.2.length =
      executedAttempts 3 [.sseTimeout, .sseTimeout, .session .timeout] - 1 ∧
    (connectRun 1 3 initialHostState
        [.sseTimeout, .sseTimeout, .session .timeout]).2.2.get? 0 =
      some ((1 : ℚ) * 2 ^ 0) ∧
    (connectRun 1 3 initialHostState
        [.sseTimeout, .sseTimeout, .session .timeout]).2.2.get? 1 =
      some ((1 : ℚ) * 2 ^ 1) :=
  ⟨(claim_C4 1 3 initialHostState
      [.sseTimeout, .sseTimeout, .session .timeout] rfl).1,
    (claim_C4 1 3 initialHostState
      [.sseTimeout, .sseTimeout, .session .timeout] rfl).2.1,
    (claim_C4 1 3 initialHostState
      [.sseTimeout, .sseTimeout, .session .timeout] rfl).2.2 2
      (by decide) (by decide),
    (claim_C4 1 3 initialHostState
      [.sseTimeout, .sseTimeout, .session .timeout] rfl).2.2 3
      (by decide) (by decide)⟩

/-- Claim C5: for every discovery outcome other than a non-empty descriptor
list — an empty operation list, a timeout, or a transport error —
`discover_tools` returns failure and the stored catalog (empty at entry, as
at its sole call site inside the connect loop) is empty afterwards; an
empty list is treated identically to a failure. -/
theorem claim_C5 (st : HostState) (conn : Nat) (o : DiscOutcome)
    (hpre : st.available_tools = []) (hfail : discFails o = true) :
    (discover_tools st conn o).2 = false ∧
      (discover_tools st conn o).1.available_tools = [] := by
  cases o with
  | tools ts =>
    have hts : ts = [] := by simpa [discFails, List.isEmpty_iff] using hfail
    subst hts
    simp [discover_tools]
  | timeout => exact ⟨rfl, hpre⟩
  | error etype => exact ⟨rfl, hpre⟩

/-- Claim C5, witness: a discovery timeout at the initial state. -/
theorem claim_C5_witness :
    (discover_tools initialHostState 1 .timeout).2 = false ∧
      (discover_tools initialHostState 1 .timeout).1.available_tools = [] :=
  claim_C5 initialHostState 1 .timeout rfl rfl

/-- Claim C8, counterexample.  With `ANTHROPIC_API_KEY` absent the process
does terminate during startup (the interactive loop is never reached), but
the exit status is 0, not nonzero: the `SystemExit(1)` raised by
`sys.exit(1)` in `__init__` is no `Exception` subclass, so it reaches the
top-level `finally: sys.exit(0)` (host.py:412), whose fresh `SystemExit(0)`
supersedes it. -/
theorem claim_C8_counterexample :
    (programRun none true).reachedInteractive = false ∧
    (programRun none true).exitCode = 0 :=
  ⟨rfl, rfl⟩

/-- Claim C8, amended: if the LLM API key is absent from the environment at
startup, the host process terminates during startup — it never reaches the
interactive loop — but with exit status 0, because the top-level handler
exits with status 0 on every path. -/
theorem claim_C8 (connectOk : Bool) :
    programRun none connectOk = ⟨0, false⟩ :=
  rfl

/-- Claim C8, witness: a concrete run with the key absent. -/
theorem claim_C8_witness : programRun none false = ⟨0, false⟩ :=
  claim_C8 false

/-- Claim C9: if the market-data API key is unset, the stock-quote
operation returns, for every input symbol, the fixed string
`"Error: Alpha Vantage API key not configured"` — which contains
`"not configured"` — and performs zero outbound network requests. -/
theorem claim_C9 (symbol : String) (net : NetOutcome) :
    get_stock_quote none symbol net =
      ("Error: Alpha Vantage API key not configured", 0) ∧
    containsSub "not configured" (get_stock_quote none symbol net).1 = true := by
  have h : get_stock_quote none symbol net =
      ("Error: Alpha Vantage API key not configured", 0) := rfl
  exact ⟨h, by rw [h]; decide⟩

/-- Claim C9, witness: a concrete symbol with the key unset. -/
theorem claim_C9_witness :
    get_stock_quote none "aapl" (.ok []) =
      ("Error: Alpha Vantage API key not configured", 0) ∧
    containsSub "not configured" (get_stock_quote none "aapl" (.ok [])).1 = true :=
  claim_C9 "aapl" (.ok [])

/-- Claim C2: in every reachable host state, when a completion request is
prepared with a non-empty tool catalog (`format_tools_for_claude`), that
catalog is exactly the descriptor list returned by the most recent
successful discovery call on the currently live connection. -/
theorem claim_C2 (st : HostState) (h : Reachable st)
    (hne : format_tools_for_claude st ≠ []) :
    ∃ c, st.liveConn = some c ∧
      st.lastDiscovery = some (c, st.available_tools) ∧
      format_tools_for_claude st = st.available_tools.map toolToClaude := by
  have htools : st.available_tools ≠ [] := by
    intro h0
    exact hne (by simp [format_tools_for_claude, h0])
  obtain ⟨c, h1, h2⟩ := reachable_confirmed st h htools
  exact ⟨c, h1, h2, rfl⟩

/-- Claim C2, witness: the state reached by a successful connect from the
initial state; its live connection is number 1 and the catalog equals the
list discovered on it. -/
theorem claim_C2_witness :
    (connect_to_mcp_server initialHostState
        [.session (.tools [⟨"get_stock_quote", "Get stock quote", "object"⟩])]).1.liveConn =
      some 1 ∧
    (connect_to_mcp_server initialHostState
        [.session (.tools [⟨"get_stock_quote", "Get stock quote", "object"⟩])]).1.lastDiscovery =
      some (1, (connect_to_mcp_server initialHostState
        [.session (.tools [⟨"get_stock_quote", "Get stock quote", "object"⟩])]).1.available_tools) ∧
    format_tools_for_claude
        (connect_to_mcp_server initialHostState
          [.session (.tools [⟨"get_stock_quote", "Get stock quote", "object"⟩])]).1 =
      ((connect_to_mcp_server initialHostState
        [.session (.tools [⟨"get_stock_quote", "Get stock quote", "object"⟩])]).1.available_tools).map
        toolToClaude := by
  obtain ⟨c, h1, h2, h3⟩ :=
    claim_C2 _ (Reachable.connect initialHostState
      [.session (.tools [⟨"get_stock_quote", "Get stock quote", "object"⟩])]
      Reachable.init rfl) (by decide)
  have hc : c = 1 := by
    have hl : (connect_to_mcp_server initialHostState
        [.session (.tools [⟨"get_stock_quote", "Get stock quote", "object"⟩])]).1.liveConn =
      some 1 := rfl
    rw [hl] at h1
    exact (Option.some.inj h1).symm
  subst hc
  exact ⟨h1, h2, h3⟩

/-- Claim C6, code-bug evidence.  At a state with a non-empty catalog and a
stop-reason `tool_use` response consisting of a single tool-use block
carrying a name, arguments and a call identifier — the exact input shape of
the repository's own `test_get_claude_response_with_tools` — the host
performs zero tool invocations instead of one: the logging statement
`print(f"Claude response received: {response.content[0].text} ...")`
(host.py:234) raises `AttributeError` on a tool-use block, the generic
handler catches it, and the turn returns an error string. -/
theorem claim_C6 :
    (get_claude_response
        ⟨[⟨"get_stock_quote", "Get stock quote", "object"⟩], 1, some 1,
          some (1, [⟨"get_stock_quote", "Get stock quote", "object"⟩])⟩
        "What is Apple trading at?"
        ⟨[.toolUse "get_stock_quote" [("symbol", "AAPL")] "toolu_01"], "tool_use"⟩
        (fun _ => .ok ["AAPL: 150.00"])
        ⟨[.text "Apple is trading at 150.00"], "end_turn"⟩).invocations = [] ∧
    (get_claude_response
        ⟨[⟨"get_stock_quote", "Get stock quote", "object"⟩], 1, some 1,
          some (1, [⟨"get_stock_quote", "Get stock quote", "object"⟩])⟩
        "What is Apple trading at?"
        ⟨[.toolUse "get_stock_quote" [("symbol", "AAPL")] "toolu_01"], "tool_use"⟩
        (fun _ => .ok ["AAPL: 150.00"])
        ⟨[.text "Apple is trading at 150.00"], "end_turn"⟩).reply =
      "Error communicating with Claude: AttributeError" ∧
    toolUses [ContentBlock.toolUse "get_stock_quote" [("symbol", "AAPL")] "toolu_01"] ≠ [] ∧
    format_tools_for_claude
        ⟨[⟨"get_stock_quote", "Get stock quote", "object"⟩], 1, some 1,
          some (1, [⟨"get_stock_quote", "Get stock quote", "object"⟩])⟩ ≠ [] :=
  ⟨rfl, rfl, by decide, by decide⟩

/-- Claim C7: once a round of tool execution has run (the first response
dispatched into `handle_tool_use`), the text of the second LLM response is
returned as the final answer regardless of that second response's stop
reason — which is universally quantified here — and the executed
invocations are exactly those of the first response's tool-use blocks, so
no further tool invocation occurs in the turn. -/
theorem claim_C7 (st : HostState) (user : String) (resp1 : LLMResponse)
    (outcomes : Nat → ToolCallOutcome) (resp2 : LLMResponse)
    (t : String) (rest : List ContentBlock)
    (t2 : String) (rest2 : List ContentBlock)
    (hstop : resp1.stop_reason = "tool_use")
    (htools : st.available_tools ≠ [])
    (h1 : resp1.content = ContentBlock.text t :: rest)
    (h2 : resp2.content = ContentBlock.text t2 :: rest2) :
    (get_claude_response st user resp1 outcomes resp2).reply = t2 ∧
    (get_claude_response st user resp1 outcomes resp2).invocations =
      (toolUses resp1.content).map (fun b => (b.1, b.2.1)) := by
  have hfmt : (format_tools_for_claude st).isEmpty = false := by
    cases hl : st.available_tools with
    | nil => exact absurd hl htools
    | cons a l => simp [format_tools_for_claude, hl]
  obtain ⟨hraised, hinv, rs, hlenrs, hmsgs⟩ :=
    runToolBlocks_spec outcomes resp1.content st 0
  rw [h1] at hraised hinv
  simp only [get_claude_response, h1, firstContentText, hstop, hfmt,
    Bool.not_false, Bool.and_true, beq_self_eq_true, if_true,
    handle_tool_use, hraised, h2]
  exact ⟨trivial, hinv⟩

/-- Claim C7, witness: a concrete turn with a leading text block, one
tool-use block, and a second response that itself signals `tool_use`. -/
theorem claim_C7_witness :
    (get_claude_response
        ⟨[⟨"get_stock_quote", "Get stock quote", "object"⟩], 1, some 1, none⟩
        "What is Apple trading at?"
        ⟨[.text "Let me check.",
          .toolUse "get_stock_quote" [("symbol", "AAPL")] "toolu_01"], "tool_use"⟩
        (fun _ => .ok ["AAPL: 150.00"])
        ⟨[.text "Apple is trading at 150.00",
          .toolUse "get_stock_quote" [("symbol", "AAPL")] "toolu_02"],
          "tool_use"⟩).reply = "Apple is trading at 150.00" ∧
    (get_claude_response
        ⟨[⟨"get_stock_quote", "Get stock quote", "object"⟩], 1, some 1, none⟩
        "What is Apple trading at?"
        ⟨[.text "Let me check.",
          .toolUse "get_stock_quote" [("symbol", "AAPL")] "toolu_01"], "tool_use"⟩
        (fun _ => .ok ["AAPL: 150.00"])
        ⟨[.text "Apple is trading at 150.00",
          .toolUse "get_stock_quote" [("symbol", "AAPL")] "toolu_02"],
          "tool_use"⟩).invocations =
      (toolUses [ContentBlock.text "Let me check.",
        ContentBlock.toolUse "get_stock_quote" [("symbol", "AAPL")] "toolu_01"]).map
        (fun b => (b.1, b.2.1)) :=
  claim_C7
    ⟨[⟨"get_stock_quote", "Get stock quote", "object"⟩], 1, some 1, none⟩
    "What is Apple trading at?"
    ⟨[.text "Let me check.",
      .toolUse "get_stock_quote" [("symbol", "AAPL")] "toolu_01"], "tool_use"⟩
    (fun _ => .ok ["AAPL: 150.00"])
    ⟨[.text "Apple is trading at 150.00",
      .toolUse "get_stock_quote" [("symbol", "AAPL")] "toolu_02"], "tool_use"⟩
    "Let me check."
    [.toolUse "get_stock_quote" [("symbol", "AAPL")] "toolu_01"]
    "Apple is trading at 150.00"
    [.toolUse "get_stock_quote" [("symbol", "AAPL")] "toolu_02"]
    rfl (by decide) rfl rfl

/-- Claim C10: when the upstream search returns more than 5 best-match
entries, the `search_stocks` output lists exactly the first 5 of them, in
upstream order, numbered 1 through 5. -/
theorem claim_C10 (apiKey query : String) (data : JDict) (best : List J)
    (herr : hasKey data "error" = false)
    (hbm : jLookup data "bestMatches" = some (J.arr best))
    (hlen : 5 < best.length) :
    (search_stocks (some apiKey) query (.ok data)).1 =
      "Search results for \x27" ++ query ++ "\x27:\n\n" ++
        concatAll (List.zipWith renderMatch (List.range' 1 5) (best.take 5)) ∧
    (best.take 5).length = 5 := by
  have htake : (best.take 5).length = 5 := by
    rw [List.length_take]
    omega
  refine ⟨?_, htake⟩
  have hne : best.isEmpty = false := by
    cases best with
    | nil => simp at hlen
    | cons a l => rfl
  simp only [search_stocks, make_api_request, herr, hbm, hne,
    Bool.false_eq_true, if_false]
  rw [renderMatches_concat, htake]

/-- Claim C10, witness: six upstream matches, of which exactly the first
five are rendered. -/
theorem claim_C10_witness :
    (search_stocks (some "demo") "alp"
        (.ok [("bestMatches", J.arr
          [J.obj [("1. symbol", .s "AL1"), ("2. name", .s "Alpha One")],
           J.obj [("1. symbol", .s "AL2"), ("2. name", .s "Alpha Two")],
           J.obj [("1. symbol", .s "AL3"), ("2. name", .s "Alpha Three")],
           J.obj [("1. symbol", .s "AL4"), ("2. name", .s "Alpha Four")],
           J.obj [("1. symbol", .s "AL5"), ("2. name", .s "Alpha Five")],
           J.obj [("1. symbol", .s "AL6"), ("2. name", .s "Alpha Six")]])])).1 =
      "Search results for \x27alp\x27:\n\n" ++
        concatAll (List.zipWith renderMatch (List.range' 1 5)
          (([J.obj [("1. symbol", .s "AL1"), ("2. name", .s "Alpha One")],
             J.obj [("1. symbol", .s "AL2"), ("2. name", .s "Alpha Two")],
             J.obj [("1. symbol", .s "AL3"), ("2. name", .s "Alpha Three")],
             J.obj [("1. symbol", .s "AL4"), ("2. name", .s "Alpha Four")],
             J.obj [("1. symbol", .s "AL5"), ("2. name", .s "Alpha Five")],
             J.obj [("1. symbol", .s "AL6"), ("2. name", .s "Alpha Six")]] : List J).take 5)) ∧
    (([J.obj [("1. symbol", .s "AL1"), ("2. name", .s "Alpha One")],
       J.obj [("1. symbol", .s "AL2"), ("2. name", .s "Alpha Two")],
       J.obj [("1. symbol", .s "AL3"), ("2. name", .s "Alpha Three")],
       J.obj [("1. symbol", .s "AL4"), ("2. name", .s "Alpha Four")],
       J.obj [("1. symbol", .s "AL5"), ("2. name", .s "Alpha Five")],
       J.obj [("1. symbol", .s "AL6"), ("2. name", .s "Alpha Six")]] : List J).take 5).length = 5 :=
  claim_C10 "demo" "alp" _ _ rfl rfl (by decide)

end FinanceAnalyzer
